import Mathlib

/-!
Verification development for the tfi-gtfs arrival resolver.

The Python source (gtfs.py, store.py) is shallowly embedded as follows:

* Python `str` values are modelled at the UTF-8 byte level as `PyStr := List Nat`
  (one `Nat` per byte, `0 ≤ b < 256`; the byte-packing code treats the NUL byte
  as a padding sentinel, so legal identifiers contain no zero byte).
* `datetime.datetime` values are modelled as `Int` seconds since an epoch that
  falls on a midnight of a Monday; `datetime.date` values as absolute day
  numbers (`Int`); `datetime.timedelta` as seconds.
* The in-process `Store` backend is modelled by functions from keys to
  `Option` values.  The store's truthiness filter (`Store.get` returns the
  default when the stored value is falsy) is irrelevant for the values the
  GTFS code stores (non-empty byte buffers, non-empty lists, non-empty dicts),
  so `none` uniformly models "missing or falsy".
* Python exceptions that escape a function are modelled with `Except`:
  `Except.error` is an uncaught exception.
* Python `for` loops whose bodies may raise are modelled with the
  short-circuiting fold `loopE`.
-/

/-- A Python `str`, represented by its UTF-8 bytes. -/
abbrev PyStr := List Nat

/-- Source `_s2b`: `s.encode('utf-8')`.  At the byte level this is the
identity. -/
def s2b (s : PyStr) : List Nat := s

/-- Source `_b2s`: `b.decode('utf-8').split(chr(0))[0]` — decode and keep the
part before the first NUL byte. -/
def b2s (b : List Nat) : PyStr := b.takeWhile (fun x => x != 0)

/-- `struct.pack('<w>s', b)`: truncate to `w` bytes and zero-pad up to `w`. -/
def packField (w : Nat) (b : List Nat) : List Nat :=
  b.take w ++ List.replicate (w - b.length) 0

/-- `struct.pack('b', v)`: two's-complement byte of a signed 8-bit value. -/
def sbyte (v : Int) : Nat := (v % 256).toNat

/-- `struct.unpack('b', ·)`: signed interpretation of one byte. -/
def unsbyte (b : Nat) : Int := if b < 128 then (b : Int) else (b : Int) - 256

/-- Source `_pack_stop_data`: `struct.pack('12s4b', trip_id, arrival_hour,
arrival_min, arrival_sec, stop_sequence)`. -/
def pack_stop_data (trip_id : PyStr) (arrival_hour arrival_min arrival_sec stop_sequence : Int) :
    List Nat :=
  packField 12 (s2b trip_id) ++
    [sbyte arrival_hour, sbyte arrival_min, sbyte arrival_sec, sbyte stop_sequence]

/-- Source `_unpack_stop_data`: `struct.unpack('12s4b', buf)` followed by
`_b2s` on the string field. -/
def unpack_stop_data (buf : List Nat) : PyStr × Int × Int × Int × Int :=
  (b2s (buf.take 12),
   unsbyte ((buf.drop 12).getD 0 0),
   unsbyte ((buf.drop 12).getD 1 0),
   unsbyte ((buf.drop 12).getD 2 0),
   unsbyte ((buf.drop 12).getD 3 0))

/-- Source `_pack_trip`: `struct.pack('12s4s', route_id, service_id)`. -/
def pack_trip (route_id service_id : PyStr) : List Nat :=
  packField 12 (s2b route_id) ++ packField 4 (s2b service_id)

/-- Source `_unpack_trip`: `struct.unpack('12s4s', buf)` followed by `_b2s`
on both fields. -/
def unpack_trip (buf : List Nat) : PyStr × PyStr :=
  (b2s (buf.take 12), b2s ((buf.drop 12).take 4))

/-- A legal value for a `w`-byte string field: at most `w` UTF-8 bytes, none
of which is the NUL padding sentinel. -/
def LegalField (w : Nat) (b : List Nat) : Prop :=
  b.length ≤ w ∧ ∀ x ∈ b, 0 < x ∧ x < 256

/-- A value fitting in a signed 8-bit integer (struct format `b`). -/
def I8 (v : Int) : Prop := -128 ≤ v ∧ v ≤ 127

instance (w : Nat) (b : List Nat) : Decidable (LegalField w b) := by
  unfold LegalField; infer_instance

instance (v : Int) : Decidable (I8 v) := by
  unfold I8; infer_instance

/-! ## Date and time model -/

/-- `datetime.date(...)` of a datetime: days since the epoch (floor division,
as in Python). -/
def dayOf (t : Int) : Int := Int.fdiv t 86400

/-- Seconds since the preceding midnight (`timedelta(hours=t.hour,
minutes=t.minute, seconds=t.second)` for a microsecond-free datetime). -/
def sodOf (t : Int) : Int := t % 86400

/-- `t.hour` of a datetime. -/
def hourOf (t : Int) : Nat := ((t % 86400) / 3600).toNat

/-- Python `date.weekday()` (Monday = 0).  The model's epoch day 0 is a
Monday. -/
def pyWeekday (d : Int) : Nat := (d % 7).toNat

/-! ## The store contents used by the resolver -/

/-- Value of the `route` namespace: `{'name': short_name, 'agency': agency}`. -/
structure RouteInfo where
  name : PyStr
  agency : PyStr
deriving Repr, DecidableEq, Inhabited

/-- Value of the `service` namespace: calendar row with start/end day numbers
and seven day-of-week flags (Monday first). -/
structure ServiceInfo where
  start_date : Int
  end_date : Int
  days : List Bool
deriving Repr, DecidableEq, Inhabited

/-- One element of a `live_delays` list, as built by `_parse_live_data`. -/
structure LiveUpdate where
  stop_sequence : Int
  stop_number : Option PyStr
  delay : Option Int
  arrival_time : Option Int
  timestamp : Nat
deriving Repr, DecidableEq, Inhabited

/-- One element of a `live_additions` list, as built by `_parse_live_data`. -/
structure Addition where
  route_id : PyStr
  arrival : Int
  timestamp : Nat
deriving Repr, DecidableEq, Inhabited

/-- The state of a `GTFS` object: its stop filters and the contents of its
in-process store, one field per namespace the resolver reads or writes.
`live_cancelations` is the list of keys of that namespace (`store.set`
inserts a key; `store.has` tests key membership). -/
structure GState where
  filter_stops : Option (List PyStr)
  filter_trips : Option (List PyStr)
  stops : PyStr → Option PyStr
  agencies : PyStr → Option PyStr
  routes : PyStr → Option RouteInfo
  services : PyStr → Option ServiceInfo
  exceptions : PyStr → Int → Option Int
  trips : PyStr → Option (List Nat)
  stop_times : PyStr → Nat → Option (List (List Nat))
  live_delays : PyStr → Option (List LiveUpdate)
  live_additions : PyStr → Option (List Addition)
  live_cancelations : List PyStr

/-- Result row of `get_trip_info`. -/
structure TripInfo where
  route : PyStr
  agency : Option PyStr
  service_id : PyStr
  start_date : Int
  end_date : Int
  days : List Bool
deriving Repr, DecidableEq, Inhabited

/-- Source `get_trip_info`.  `Except.error ()` models an uncaught exception:
when the `service` record is missing, `calendar_info` is `None` and
`calendar_info['start_date']` raises `TypeError`, which the surrounding
`except KeyError` clause does not catch (the in-process `Store.get` returns
`None` on a miss instead of raising `KeyError`, so that clause is dead). -/
def get_trip_info (g : GState) (trip_id : PyStr) : Except Unit (Option TripInfo) :=
  match g.trips trip_id with
  | Option.none => Except.ok Option.none
  | Option.some packed_trip =>
    if packed_trip.isEmpty then Except.ok Option.none else
    let rs := unpack_trip packed_trip
    match g.routes rs.1 with
    | Option.none => Except.ok Option.none
    | Option.some route_info =>
      let agency_info := g.agencies route_info.agency
      match g.services rs.2 with
      | Option.none => Except.error ()
      | Option.some calendar_info =>
        Except.ok (Option.some
          { route := route_info.name
            agency := agency_info
            service_id := rs.2
            start_date := calendar_info.start_date
            end_date := calendar_info.end_date
            days := calendar_info.days })

/-! ## `_get_live_delay` -/

/-- The `while left <= right` binary-search loop of `_get_live_delay`.
The source's inclusive bound `right` is carried here as the exclusive bound
`hi = right + 1` so that both bounds stay in `Nat`; the loop condition
`left <= right`, the midpoint `(left + right) // 2`, and the updates
`left = mid + 1` / `right = mid - 1` translate verbatim under that shift.
After the loop, `left == 0` yields `None`, otherwise
`updates[left - 1]['delay']`. -/
def delay_search (updates : List LiveUpdate) (stop_sequence : Int) (left hi : Nat) : Option Int :=
  if _h : left < hi then
    let mid := (left + hi - 1) / 2
    let u := updates.getD mid default
    if u.stop_sequence < stop_sequence then delay_search updates stop_sequence (mid + 1) hi
    else if stop_sequence < u.stop_sequence then delay_search updates stop_sequence left mid
    else u.delay
  else if left = 0 then Option.none
  else (updates.getD (left - 1) default).delay
termination_by hi - left
decreasing_by all_goals omega

/-- Source `_get_live_delay`: fetch `live_delays[trip_id]` (an absent or empty
list is falsy and yields `None`) and binary-search it.  Returning a found
entry's `delay` field, which may itself be `None`, is indistinguishable in
Python from returning `None`, so the result type is a single `Option Int`. -/
def get_live_delay (g : GState) (trip_id : PyStr) (stop_sequence : Int) : Option Int :=
  match g.live_delays trip_id with
  | Option.none => Option.none
  | Option.some updates =>
    if updates.isEmpty then Option.none
    else delay_search updates stop_sequence 0 updates.length

/-! ## `get_scheduled_arrivals` -/

/-- A Python `for` loop whose body may raise: fold the body over the list,
short-circuiting with the exception value. -/
def loopE {α β γ : Type} (f : β → α → Except γ β) (b : β) : List α → Except γ β
  | [] => Except.ok b
  | a :: t =>
    match f b a with
    | Except.error e => Except.error e
    | Except.ok b2 => loopE f b2 t

/-- The `try_hours` computation of `get_scheduled_arrivals`: `[23]` when
`now.hour == 0` else `[now.hour - 1]`, extended with
`[h % 24 for h in range(now.hour, now.hour + int(max_wait.total_seconds() // 3600) + 1)]`. -/
def try_hours (nowHour : Nat) (maxWaitSeconds : Nat) : List Nat :=
  (if nowHour = 0 then [23] else [nowHour - 1]) ++
    (List.range' nowHour (maxWaitSeconds / 3600 + 1)).map (fun h => h % 24)

/-- One returned arrival row. -/
structure Arrival where
  route : PyStr
  agency : Option PyStr
  scheduled_arrival : Int
  real_time_arrival : Option Int
deriving Repr, DecidableEq, Inhabited

/-- The resolver's final keep-condition for a static arrival:
`arrival['scheduled_arrival'] > now or (arrival['real_time_arrival'] and
arrival['real_time_arrival'] > now)` (a datetime is always truthy, `None` is
falsy). -/
def future_filter (now : Int) (a : Arrival) : Bool :=
  decide (a.scheduled_arrival > now) ||
    (match a.real_time_arrival with
     | Option.some rt => decide (rt > now)
     | Option.none => false)

/-- The body of the inner `for packed_stop_data in ...` loop of
`get_scheduled_arrivals`, producing the arrival row (tagged with the trip it
came from) or nothing.  `Except.error` propagates an exception raised by
`get_trip_info`. -/
def arrival_of_packed (g : GState) (now : Int) (buf : List Nat) :
    Except Unit (Option (PyStr × Arrival)) :=
  let u := unpack_stop_data buf
  let trip_id := u.1
  let time_since_midnight := sodOf now
  let arrival0 : Int := u.2.1 * 3600 + u.2.2.1 * 60 + u.2.2.2.1
  let stop_sequence := u.2.2.2.2
  let arrival_time := if time_since_midnight - 43200 > arrival0 then arrival0 + 86400 else arrival0
  let arrival_datetime := dayOf now * 86400 + arrival_time
  match get_trip_info g trip_id with
  | Except.error e => Except.error e
  | Except.ok Option.none => Except.ok Option.none
  | Except.ok (Option.some trip_info) =>
    let d := dayOf arrival_datetime
    let service_is_scheduled :=
      (decide (trip_info.start_date ≤ d) && decide (d ≤ trip_info.end_date)) &&
        trip_info.days.getD (pyWeekday d) false
    let calendar_exception := g.exceptions trip_info.service_id d
    let added := calendar_exception = Option.some 1
    let removed := calendar_exception = Option.some 2
    if added ∨ (service_is_scheduled = true ∧ ¬removed) then
      let delay := get_live_delay g trip_id stop_sequence
      if g.live_cancelations.contains trip_id then Except.ok Option.none
      else
        let arrival : Arrival :=
          { route := trip_info.route
            agency := trip_info.agency
            scheduled_arrival := arrival_datetime
            real_time_arrival := delay.map (fun dl => arrival_datetime + dl) }
        if future_filter now arrival then
          Except.ok (Option.some (trip_id, arrival))
        else Except.ok Option.none
    else Except.ok Option.none

/-- One iteration of the `for hour in try_hours` loop: append every surviving
arrival of the hour's bucket (skipped when the bucket is absent). -/
def hour_step (g : GState) (stop_number : PyStr) (now : Int)
    (acc : List (PyStr × Arrival)) (hour : Nat) : Except Unit (List (PyStr × Arrival)) :=
  match g.stop_times stop_number hour with
  | Option.none => Except.ok acc
  | Option.some rows =>
    loopE (fun acc2 buf =>
      match arrival_of_packed g now buf with
      | Except.error e => Except.error e
      | Except.ok Option.none => Except.ok acc2
      | Except.ok (Option.some p) => Except.ok (acc2 ++ [p])) acc rows

/-- The static (timetable-derived) part of `get_scheduled_arrivals`, with each
arrival tagged by the trip it was derived from. -/
def static_arrivals (g : GState) (stop_number : PyStr) (now : Int) (maxWaitSeconds : Nat) :
    Except Unit (List (PyStr × Arrival)) :=
  loopE (hour_step g stop_number now) [] (try_hours (hourOf now) maxWaitSeconds)

/-- The body of the `for added_trip in live_additions` loop.  When the added
trip's `route_id` is unknown, `route_info` is `None` and
`route_info['agency']` raises `TypeError` (modelled by `Except.error`). -/
def addition_step (g : GState) (acc : List Arrival) (added_trip : Addition) :
    Except Unit (List Arrival) :=
  match g.routes added_trip.route_id with
  | Option.none => Except.error ()
  | Option.some route_info =>
    Except.ok (acc ++
      [{ route := route_info.name
         agency := g.agencies route_info.agency
         scheduled_arrival := added_trip.arrival
         real_time_arrival := Option.some added_trip.arrival }])

/-- The sort key `x['real_time_arrival'] or x['scheduled_arrival']`
(a datetime is always truthy, `None` is falsy). -/
def sort_key (a : Arrival) : Int := a.real_time_arrival.getD a.scheduled_arrival

/-- Source `get_scheduled_arrivals`: static arrivals over the scanned hour
buckets, then the live additions for the stop, sorted stably and ascending by
`sort_key`.  Python's stable `list.sort` is modelled by insertion sort. -/
def get_scheduled_arrivals (g : GState) (stop_number : PyStr) (now : Int)
    (maxWaitSeconds : Nat) : Except Unit (List Arrival) :=
  match static_arrivals g stop_number now maxWaitSeconds with
  | Except.error e => Except.error e
  | Except.ok scheduled =>
    match loopE (addition_step g) (scheduled.map Prod.snd)
        ((g.live_additions stop_number).getD []) with
    | Except.error e => Except.error e
    | Except.ok all =>
      Except.ok (List.insertionSort (fun a b => sort_key a ≤ sort_key b) all)

/-! ## `_parse_live_data` -/

/-- GTFS-realtime trip `ScheduleRelationship` values used by the source. -/
def TRIP_SCHEDULED : Nat := 0

/-- `TRIP_ADDED` (1). -/
def TRIP_ADDED : Nat := 1

/-- `TRIP_CANCELLED` (3). -/
def TRIP_CANCELLED : Nat := 3

/-- GTFS-realtime stop-time `ScheduleRelationship` value `SCHEDULED` (0). -/
def STOP_SCHEDULED : Nat := 0

/-- One `stop_time_update` message.  `arrival_time` and `arrival_delay` model
the protobuf fields `arrival.time` and `arrival.delay`, whose unset value is
the falsy `0`. -/
structure StopTimeUpdate where
  schedule_relationship : Nat
  stop_id : PyStr
  arrival_time : Int
  arrival_delay : Int
  stop_sequence : Int
deriving Repr, DecidableEq, Inhabited

/-- One `trip_update` entity of a feed message. -/
structure TripUpdateMsg where
  trip_id : PyStr
  route_id : PyStr
  schedule_relationship : Nat
  stop_time_update : List StopTimeUpdate
deriving Repr, DecidableEq, Inhabited

/-- The body of the `for stop_time_update in ...` loop of `_parse_live_data`.
The running state is the store state plus the entity's `trip_delays` buffer.
`Except.error` carries the store state at the moment an exception escapes:
in the `TRIP_CANCELLED` branch, `store.set('live_cancelations', ...)` has
already executed when the write to the never-initialized `self._live_data`
raises `AttributeError`; in the `TRIP_SCHEDULED` branch, `get_trip_info` can
raise `TypeError` (see `get_trip_info`). -/
def stu_step (ts : Nat) (tu : TripUpdateMsg) (st : GState × List LiveUpdate)
    (stu : StopTimeUpdate) : Except GState (GState × List LiveUpdate) :=
  let g := st.1
  let trip_delays := st.2
  if stu.schedule_relationship ≠ STOP_SCHEDULED then Except.ok (g, trip_delays)
  else
    let stop_number := g.stops stu.stop_id
    if g.filter_stops = Option.none ∧ stop_number = Option.none then
      Except.ok (g, trip_delays)
    else if tu.schedule_relationship = TRIP_ADDED ∧ stop_number ≠ Option.none then
      if stu.arrival_time ≠ 0 then
        let sn := stop_number.getD []
        let live_additions := (g.live_additions sn).getD []
        Except.ok
          ({ g with live_additions := fun s =>
              if s = sn then
                Option.some (live_additions ++
                  [{ route_id := tu.route_id, arrival := stu.arrival_time, timestamp := ts }])
              else g.live_additions s },
           trip_delays)
      else Except.ok (g, trip_delays)
    else if tu.schedule_relationship = TRIP_CANCELLED then
      Except.error { g with live_cancelations := g.live_cancelations ++ [tu.trip_id] }
    else if tu.schedule_relationship = TRIP_SCHEDULED then
      match get_trip_info g tu.trip_id with
      | Except.error _ => Except.error g
      | Except.ok Option.none => Except.ok (g, trip_delays)
      | Except.ok (Option.some _) =>
        if stu.arrival_time ≠ 0 then
          Except.ok (g, trip_delays ++
            [{ stop_sequence := stu.stop_sequence, stop_number := stop_number,
               delay := Option.none, arrival_time := Option.some stu.arrival_time,
               timestamp := ts }])
        else
          let delay := stu.arrival_delay
          if delay < -604800 then Except.ok (g, trip_delays)
          else Except.ok (g, trip_delays ++
            [{ stop_sequence := stu.stop_sequence, stop_number := stop_number,
               delay := Option.some delay, arrival_time := Option.none,
               timestamp := ts }])
    else Except.ok (g, trip_delays)

/-- The entity-level filter test `self.filter_trips and trip_id not in
self.filter_trips` (an absent or empty set is falsy). -/
def filter_trips_skip (g : GState) (tu : TripUpdateMsg) : Bool :=
  match g.filter_trips with
  | Option.some l => !l.isEmpty && !l.contains tu.trip_id
  | Option.none => false

/-- The body of the `for entity in feed.entity` loop: skip a filtered trip,
run the stop-time-update loop with an empty `trip_delays` buffer, and store
the buffer at `live_delays[trip_id]` when it is non-empty. -/
def entity_step (ts : Nat) (g : GState) (tu : TripUpdateMsg) : Except GState GState :=
  if filter_trips_skip g tu then Except.ok g
  else
    match loopE (stu_step ts tu) (g, []) tu.stop_time_update with
    | Except.error gc => Except.error gc
    | Except.ok gd =>
      Except.ok
        (if gd.2.isEmpty then gd.1
         else { gd.1 with live_delays := fun t =>
                  if t = tu.trip_id then Option.some gd.2 else gd.1.live_delays t })

/-- Source `_parse_live_data`, over the feed's `trip_update` entities and the
feed header timestamp `ts`.  `Except.error g` is a pass aborted by an uncaught
exception, with `g` the store state at that moment (the caller's
`except urllib.error.HTTPError` does not catch it). -/
def parse_live_data (g : GState) (ts : Nat) (feed : List TripUpdateMsg) :
    Except GState GState :=
  loopE (entity_step ts) g feed

/-! ## The in-process `Store` of store.py (for the claim about `Store.get`) -/

/-- A Python value, as far as `Store.get`/`Store.set` inspect one: its
truthiness and, for hot-cache entries, the `(timestamp, value)` 2-tuple
shape. -/
inductive PyVal where
  | none : PyVal
  | int : Int → PyVal
  | bool : Bool → PyVal
  | str : String → PyVal
  | list : List PyVal → PyVal
  | pair : PyVal → PyVal → PyVal

/-- Python truthiness of a modelled value (`None`, `0`, `False`, `''` and
`[]` are falsy; a 2-tuple is always truthy). -/
def PyVal.truthy : PyVal → Bool
  | PyVal.none => false
  | PyVal.int n => n != 0
  | PyVal.bool b => b
  | PyVal.str s => !(s == "")
  | PyVal.list l => !l.isEmpty
  | PyVal.pair _ _ => true

/-- A namespace's configuration dictionary.  The dictionaries built by the
repository hold the keys `cache` and `expiry`; `is_cachable` mirrors
`config.get('is_cachable')`, a key no caller ever sets. -/
structure NsConfig where
  cache : Bool
  expiry : Option Int
  is_cachable : Bool

/-- The in-process `Store` (`redis` is `None`): namespace configuration and
the `data` mapping of namespace → key → value. -/
structure PyStore where
  namespace_config : String → Option NsConfig
  data : String → String → Option PyVal

/-- Source `Store.get` for the in-process backend, at wall-clock `now`.
Returns the value and the possibly-updated store (an expired hot-cache entry
is deleted in place).  A cached item that is not a `(timestamp, value)`
2-tuple raises `TypeError` during unpacking or subtraction, which the source
catches and logs, leaving `value = None`. -/
def store_get (s : PyStore) (now : Int) (ns key : String) (default : PyVal) :
    PyVal × PyStore :=
  let config := s.namespace_config ns
  let expiry := config.bind (fun c => c.expiry)
  let is_cachable := (config.map (fun c => c.cache)).getD false
  let cached_item := (s.data ns key).getD PyVal.none
  let vs :=
    if cached_item.truthy then
      if is_cachable then
        match cached_item with
        | PyVal.pair (PyVal.int t) cached_value =>
          match expiry with
          | Option.none => (cached_value, s)
          | Option.some e =>
            if now - t < e then (cached_value, s)
            else
              (PyVal.none,
               { s with data := fun n k =>
                   if n = ns ∧ k = key then Option.none else s.data n k })
        | _ => (PyVal.none, s)
      else (cached_item, s)
    else (PyVal.none, s)
  (match vs.1 with
   | PyVal.none => default
   | v => v, vs.2)

/-- Source `Store.set` for the in-process backend at wall-clock `now`:
wrap the value in a `(timestamp, value)` tuple when
`config.get('is_cachable')` is truthy (it never is for the repository's
configurations), then store it. -/
def store_set (s : PyStore) (now : Int) (ns key : String) (value : PyVal) : PyStore :=
  let config := s.namespace_config ns
  let is_cachable := (config.map (fun c => c.is_cachable)).getD false
  let value2 := if is_cachable then PyVal.pair (PyVal.int now) value else value
  { s with data := fun n k => if n = ns ∧ k = key then Option.some value2 else s.data n k }

/-! ## Specification-side definitions

These follow the words of the specification (not the source) and exist to be
compared with the source-derived definitions above. -/

/-- The hour list claimed by the specification: `[hour_before, now.hour, …,
now.hour + ceil(max_wait_hours)]`, each mod 24. -/
def try_hours_ceil_spec (nowHour : Nat) (maxWaitSeconds : Nat) : List Nat :=
  (if nowHour = 0 then [23] else [nowHour - 1]) ++
    (List.range ((maxWaitSeconds + 3599) / 3600 + 1)).map (fun i => (nowHour + i) % 24)

/-- The amended hour list: `[hour_before, now.hour, …,
now.hour + floor(max_wait_hours)]`, each mod 24. -/
def try_hours_floor_spec (nowHour : Nat) (maxWaitSeconds : Nat) : List Nat :=
  (if nowHour = 0 then [23] else [nowHour - 1]) ++
    (List.range (maxWaitSeconds / 3600 + 1)).map (fun i => (nowHour + i) % 24)

/-! ## Concrete store states used by counterexamples and witnesses -/

/-- A base state: one agency `"a"` (byte 97), one route `"r"` (byte 114) of
that agency with short name `"R"` (byte 82), one service `"s"` (byte 115)
running every day of days 0–100, and one trip `"t"` (byte 116) on that route
and service.  No stop times and no live data. -/
def g0 : GState where
  filter_stops := Option.none
  filter_trips := Option.none
  stops := fun _ => Option.none
  agencies := fun a => if a = [97] then Option.some [65] else Option.none
  routes := fun r => if r = [114] then Option.some { name := [82], agency := [97] } else Option.none
  services := fun s =>
    if s = [115] then
      Option.some { start_date := 0, end_date := 100,
                    days := [true, true, true, true, true, true, true] }
    else Option.none
  exceptions := fun _ _ => Option.none
  trips := fun t => if t = [116] then Option.some (pack_trip [114] [115]) else Option.none
  stop_times := fun _ _ => Option.none
  live_delays := fun _ => Option.none
  live_additions := fun _ => Option.none
  live_cancelations := []

/-- State for the midnight-rollover scenario: stop number `"s"` (byte 115)
has a single stop time of trip `"t"` with raw offset 23:58:00, stored in
hour bucket 23. -/
def cg4 : GState :=
  { g0 with stop_times := fun s h =>
      if s = [115] ∧ h = 23 then Option.some [pack_stop_data [116] 23 58 0 5] else Option.none }

/-- The arrival produced by `cg4` for a query at 00:05 of day 10:
day 10 (today), wall clock 23:58. -/
def carr4 : Arrival :=
  { route := [82], agency := Option.some [65],
    scheduled_arrival := 950280, real_time_arrival := Option.none }

/-- State for the cancellation scenario: trips `"t"` (byte 116) and `"u"`
(byte 117) both serve stop `"s"` at 09:30:00, and trip `"t"` has a recorded
live cancellation. -/
def cg2 : GState :=
  { g0 with
    trips := fun t =>
      if t = [116] ∨ t = [117] then Option.some (pack_trip [114] [115]) else Option.none
    stop_times := fun s h =>
      if s = [115] ∧ h = 9 then
        Option.some [pack_stop_data [116] 9 30 0 3, pack_stop_data [117] 9 30 0 3]
      else Option.none
    live_cancelations := [[116]] }

/-- The single static arrival `cg2` produces for a 09:10 query of day 10
(the one from the trip that is not cancelled). -/
def carr2 : Arrival :=
  { route := [82], agency := Option.some [65],
    scheduled_arrival := 898200, real_time_arrival := Option.none }

/-- State with one live addition at stop `"s"` arriving at time 2599,
far beyond the query window of the claim about the window bound. -/
def cg9 : GState :=
  { g0 with live_additions := fun s =>
      if s = [115] then Option.some [{ route_id := [114], arrival := 2599, timestamp := 1 }]
      else Option.none }

/-- The arrival produced by `cg9`. -/
def carr9 : Arrival :=
  { route := [82], agency := Option.some [65],
    scheduled_arrival := 2599, real_time_arrival := Option.some 2599 }

/-- State with one live addition at stop `"s"` whose arrival time 900 is in
the past for a query at `now = 1000`. -/
def cg3 : GState :=
  { g0 with live_additions := fun s =>
      if s = [115] then Option.some [{ route_id := [114], arrival := 900, timestamp := 1 }]
      else Option.none }

/-- The past arrival produced by `cg3`. -/
def carr3 : Arrival :=
  { route := [82], agency := Option.some [65],
    scheduled_arrival := 900, real_time_arrival := Option.some 900 }

/-- State in which trip `"t"` and its route and agency exist but the
service record `"s"` is missing. -/
def cg6 : GState := { g0 with services := fun _ => Option.none }

/-- A sorted live-delays list for trip `"t"`: delays 10 and 20 at stop
sequences 1 and 5. -/
def lu1 : List LiveUpdate :=
  [{ stop_sequence := 1, stop_number := Option.none, delay := Option.some 10,
     arrival_time := Option.none, timestamp := 0 },
   { stop_sequence := 5, stop_number := Option.none, delay := Option.some 20,
     arrival_time := Option.none, timestamp := 0 }]

/-- State whose live-delays store holds `lu1` for trip `"t"`. -/
def cg1 : GState :=
  { g0 with live_delays := fun t => if t = [116] then Option.some lu1 else Option.none }

/-- State with a pre-existing live delay for trip `"1"` (byte 49), and full
static records for trip `"7"` (byte 55) whose stop id `"d"` (byte 100)
resolves to stop number `"s"`. -/
def cg8 : GState :=
  { g0 with
    stops := fun sid => if sid = [100] then Option.some [115] else Option.none
    trips := fun t => if t = [55] then Option.some (pack_trip [114] [115]) else Option.none
    live_delays := fun t =>
      if t = [49] then
        Option.some [{ stop_sequence := 1, stop_number := Option.some [115],
                       delay := Option.some 60, arrival_time := Option.none, timestamp := 3 }]
      else Option.none }

/-- A one-entity feed: a `TRIP_SCHEDULED` update for trip `"7"` with a single
scheduled stop-time update carrying a 120-second delay. -/
def feed8 : List TripUpdateMsg :=
  [{ trip_id := [55], route_id := [114], schedule_relationship := 0,
     stop_time_update := [{ schedule_relationship := 0, stop_id := [100],
                            arrival_time := 0, arrival_delay := 120, stop_sequence := 4 }] }]

/-- The store state `parse_live_data cg8 7 feed8` produces: the new delay
list for trip `"7"` is added, everything else persists. -/
def cg8r : GState :=
  { cg8 with live_delays := fun t =>
      if t = [55] then
        Option.some [{ stop_sequence := 4, stop_number := Option.some [115],
                       delay := Option.some 120, arrival_time := Option.none, timestamp := 7 }]
      else cg8.live_delays t }

/-! ## Packing round-trip lemmas -/

/-- `takeWhile (· != 0)` recovers a NUL-free byte list from its zero-padded
form. -/
lemma takeWhile_ne_append_replicate (b : List Nat) (k : Nat) (hb : ∀ x ∈ b, x ≠ 0) :
    (b ++ List.replicate k 0).takeWhile (fun x => x != 0) = b := by
  induction b with
  | nil =>
    cases k with
    | zero => rfl
    | succ k => simp [List.replicate_succ, List.takeWhile_cons]
  | cons x t ih =>
    have hx : x ≠ 0 := hb x (by simp)
    have ht : ∀ y ∈ t, y ≠ 0 := fun y hy => hb y (by simp [hy])
    simp [List.takeWhile_cons, hx, ih ht]

/-- A packed field has exactly its declared width. -/
lemma length_packField (w : Nat) (b : List Nat) (h : b.length ≤ w) :
    (packField w b).length = w := by
  simp only [packField, List.length_append, List.length_take, List.length_replicate]
  omega

/-- Unpacking a legally packed field recovers the field. -/
lemma b2s_packField (w : Nat) (b : List Nat) (h : LegalField w b) :
    b2s (packField w b) = b := by
  unfold b2s packField
  rw [List.take_of_length_le h.1]
  exact takeWhile_ne_append_replicate b _ (fun x hx => by have := h.2 x hx; omega)

/-- Signed-byte round trip on the 8-bit range. -/
lemma unsbyte_sbyte (v : Int) (h : I8 v) : unsbyte (sbyte v) = v := by
  obtain ⟨h1, h2⟩ := h
  unfold unsbyte sbyte
  split <;> omega

/-- Unpack-of-pack for trip records on legal inputs. -/
lemma unpack_pack_trip (r s : PyStr) (hr : LegalField 12 r) (hs : LegalField 4 s) :
    unpack_trip (pack_trip r s) = (r, s) := by
  unfold unpack_trip pack_trip s2b
  rw [List.take_left' (length_packField 12 r hr.1), List.drop_left' (length_packField 12 r hr.1),
    List.take_of_length_le (le_of_eq (length_packField 4 s hs.1)),
    b2s_packField 12 r hr, b2s_packField 4 s hs]

/-- Unpack-of-pack for stop-time records on legal inputs. -/
lemma unpack_pack_stop (t : PyStr) (h m sec q : Int) (ht : LegalField 12 t)
    (hh : I8 h) (hm : I8 m) (hs : I8 sec) (hq : I8 q) :
    unpack_stop_data (pack_stop_data t h m sec q) = (t, h, m, sec, q) := by
  unfold unpack_stop_data pack_stop_data s2b
  rw [List.take_left' (length_packField 12 t ht.1), List.drop_left' (length_packField 12 t ht.1)]
  simp only [List.getD_cons_zero, List.getD_cons_succ]
  rw [b2s_packField 12 t ht, unsbyte_sbyte h hh, unsbyte_sbyte m hm,
    unsbyte_sbyte sec hs, unsbyte_sbyte q hq]

/-- C7.  Pack/unpack round-trips: `unpack(pack(x)) == x` for every legal
trip record and every legal stop-time record, and `pack(unpack(x)) == x` for
every legal packed 16-byte buffer (a buffer is legal when it is the packing
of legal fields: NUL-free zero-padded strings of the declared widths and
signed 8-bit integers). -/
theorem pack_roundtrip :
    (∀ r s, LegalField 12 r → LegalField 4 s → unpack_trip (pack_trip r s) = (r, s)) ∧
    (∀ t h m sec q, LegalField 12 t → I8 h → I8 m → I8 sec → I8 q →
      unpack_stop_data (pack_stop_data t h m sec q) = (t, h, m, sec, q)) ∧
    (∀ buf, (∃ r s, LegalField 12 r ∧ LegalField 4 s ∧ buf = pack_trip r s) →
      pack_trip (unpack_trip buf).1 (unpack_trip buf).2 = buf) ∧
    (∀ buf,
      (∃ t h m sec q, LegalField 12 t ∧ I8 h ∧ I8 m ∧ I8 sec ∧ I8 q ∧
        buf = pack_stop_data t h m sec q) →
      pack_stop_data (unpack_stop_data buf).1 (unpack_stop_data buf).2.1
        (unpack_stop_data buf).2.2.1 (unpack_stop_data buf).2.2.2.1
        (unpack_stop_data buf).2.2.2.2 = buf) := by
  refine ⟨unpack_pack_trip, unpack_pack_stop, ?_, ?_⟩
  · rintro buf ⟨r, s, hr, hs, rfl⟩
    rw [unpack_pack_trip r s hr hs]
  · rintro buf ⟨t, h, m, sec, q, ht, hh, hm, hs, hq, rfl⟩
    rw [unpack_pack_stop t h m sec q ht hh hm hs hq]

/-- Witness for C7 at concrete legal inputs. -/
theorem pack_roundtrip_witness :
    unpack_trip (pack_trip [114] [115]) = ([114], [115]) ∧
    unpack_stop_data (pack_stop_data [116] 23 58 0 5) = ([116], 23, 58, 0, 5) ∧
    pack_trip (unpack_trip (pack_trip [114] [115])).1
      (unpack_trip (pack_trip [114] [115])).2 = pack_trip [114] [115] :=
  ⟨pack_roundtrip.1 [114] [115] (by decide) (by decide),
   pack_roundtrip.2.1 [116] 23 58 0 5 (by decide) (by decide) (by decide) (by decide) (by decide),
   pack_roundtrip.2.2.1 (pack_trip [114] [115])
     ⟨[114], [115], by decide, by decide, rfl⟩⟩

/-! ## C5: the scanned hour buckets -/

/-- C5 counterexample.  For `now.hour = 9` and `max_wait = 30` minutes
(1800 seconds) the source scans `[8, 9]`, while the claimed list — whose last
element is `now.hour + ceil(max_wait_hours)` — is `[8, 9, 10]`. -/
theorem try_hours_ceiling_counterexample :
    try_hours 9 1800 = [8, 9] ∧ try_hours_ceil_spec 9 1800 = [8, 9, 10] ∧
    try_hours 9 1800 ≠ try_hours_ceil_spec 9 1800 := by
  refine ⟨by decide, by decide, by decide⟩

/-- C5 amended.  The scanned buckets are `[hour_before, now.hour, …,
now.hour + floor(max_wait_hours)]`, each mod 24 — the floor, not the
ceiling, of `max_wait` in hours. -/
theorem try_hours_floor : ∀ (nowHour maxWaitSeconds : Nat),
    try_hours nowHour maxWaitSeconds = try_hours_floor_spec nowHour maxWaitSeconds := by
  intro h s
  unfold try_hours try_hours_floor_spec
  rw [List.range'_eq_map_range, List.map_map]
  rfl

/-! ## C6: `get_trip_info` on a missing service record -/

/-- C6.  In state `cg6` the trip record and its route and agency all resolve,
but the service record is absent; `get_trip_info` then raises (`TypeError`
on `calendar_info['start_date']`, modelled by `Except.error`) instead of
returning `None` as the specification requires. -/
theorem get_trip_info_missing_service_raises :
    cg6.trips [116] = Option.some (pack_trip [114] [115]) ∧
    cg6.routes [114] ≠ Option.none ∧
    cg6.services [115] = Option.none ∧
    get_trip_info cg6 [116] = Except.error () := by
  refine ⟨rfl, by simp [cg6, g0], rfl, rfl⟩

/-! ## C4: the midnight scenario -/

/-- C4 counterexample.  At `now` = day 10, 00:05:00 (864300) with
`max_wait` = 60 minutes, the only returned arrival for the 23:58 stop time is
dated *today* (day 10, second-of-day 86280 = 23:58), and no arrival dated
yesterday (day 9) is returned — the opposite of the claim on both counts. -/
theorem midnight_query_counterexample :
    get_scheduled_arrivals cg4 [115] 864300 3600 = Except.ok [carr4] ∧
    carr4.scheduled_arrival = 10 * 86400 + (23 * 3600 + 58 * 60) ∧
    carr4.scheduled_arrival ≠ 9 * 86400 + (23 * 3600 + 58 * 60) := by
  refine ⟨rfl, by decide, by decide⟩

/-- C4 amended.  At 00:05 with a 60-minute window the raw 23:58 stop time
from the previous-hour bucket is returned projected onto *today's* calendar
date (the resolver never subtracts a day): the scheduled arrival's date
equals `now`'s date and its wall-clock time is 23:58. -/
theorem midnight_query_today_projection :
    get_scheduled_arrivals cg4 [115] 864300 3600 = Except.ok [carr4] ∧
    dayOf carr4.scheduled_arrival = dayOf 864300 ∧
    sodOf carr4.scheduled_arrival = 23 * 3600 + 58 * 60 := by
  refine ⟨rfl, by decide, by decide⟩

/-! ## C9: no upper bound at `now + max_wait` -/

/-- C9.  A store state and query for which the returned list contains an
arrival whose effective time (`real_time_arrival` if present, else
`scheduled_arrival` — the sort key) lies strictly beyond `now + max_wait`:
a live addition at 2599 is returned for a query at `now = 1000` with
`max_wait = 600` seconds. -/
theorem no_upper_bound_on_window :
    get_scheduled_arrivals cg9 [115] 1000 600 = Except.ok [carr9] ∧
    sort_key carr9 > 1000 + 600 := by
  refine ⟨rfl, by decide⟩

/-! ## C3: the future filter -/

/-- C3 counterexample.  A live addition whose arrival time 900 is ≤ `now`
(1000) is returned even though it satisfies neither disjunct of the claimed
filter: its scheduled and real-time arrivals are both in the past. -/
theorem live_addition_bypasses_future_filter :
    get_scheduled_arrivals cg3 [115] 1000 600 = Except.ok [carr3] ∧
    future_filter 1000 carr3 = false := by
  refine ⟨rfl, rfl⟩

/-! ## C10: `Store.get` returns stored values only when truthy -/

/-- C10.  In the in-process backend, for a namespace with no configuration,
`Store.get` after `Store.set` returns the stored value exactly when that
value is truthy, and the default otherwise (in particular for stored `0`,
`False`, `''`, `[]` or `None`). -/
theorem store_get_truthy_only (s : PyStore) (t1 t2 : Int) (ns key : String)
    (v default : PyVal) (hcfg : s.namespace_config ns = Option.none) :
    (store_get (store_set s t1 ns key v) t2 ns key default).1 =
      if v.truthy then v else default := by
  unfold store_get store_set
  rw [hcfg]
  dsimp only
  rw [if_pos (⟨rfl, rfl⟩ : ns = ns ∧ key = key)]
  simp only [Option.map_none', Option.getD_none, Option.getD_some, Bool.false_eq_true,
    if_false, Option.none_bind]
  cases hv : v.truthy
  · simp [hv]
  · simp only [hv, if_true]
    cases v <;> simp_all [PyVal.truthy]

/-- An empty in-process store with no namespace configuration. -/
def pstore0 : PyStore :=
  { namespace_config := fun _ => Option.none, data := fun _ _ => Option.none }

/-- Witness for C10: storing the falsy `0` and reading it back under default
`7` yields `7`. -/
theorem store_get_truthy_only_witness :
    (store_get (store_set pstore0 1 "ns" "k" (PyVal.int 0)) 2 "ns" "k" (PyVal.int 7)).1 =
      PyVal.int 7 := by
  have h := store_get_truthy_only pstore0 1 2 "ns" "k" (PyVal.int 0) (PyVal.int 7) rfl
  simpa [PyVal.truthy] using h

/-! ## Fold invariants for the resolver loops -/

/-- An invariant preserved by each successful step of `loopE` holds at its
final value. -/
lemma loopE_inv {α β γ : Type} (f : β → α → Except γ β) (P : β → Prop)
    (hf : ∀ b a b2, P b → f b a = Except.ok b2 → P b2) :
    ∀ (l : List α) (b b2 : β), P b → loopE f b l = Except.ok b2 → P b2 := by
  intro l
  induction l with
  | nil =>
    intro b b2 hP h
    simp only [loopE] at h
    cases h
    exact hP
  | cons a t ih =>
    intro b b2 hP h
    simp only [loopE] at h
    cases hfa : f b a with
    | error e => rw [hfa] at h; cases h
    | ok bb => rw [hfa] at h; exact ih bb b2 (hf b a bb hP hfa) h

/-- Anything `arrival_of_packed` emits passed the future filter, carries the
trip id of its packed record, and is not cancelled. -/
lemma arrival_of_packed_sound (g : GState) (now : Int) (buf : List Nat)
    (p : PyStr × Arrival) (h : arrival_of_packed g now buf = Except.ok (Option.some p)) :
    future_filter now p.2 = true ∧ g.live_cancelations.contains p.1 = false := by
  unfold arrival_of_packed at h
  dsimp only at h
  cases hti : get_trip_info g (unpack_stop_data buf).1 with
  | error e => rw [hti] at h; cases h
  | ok oti =>
    rw [hti] at h
    cases oti with
    | none => simp at h
    | some ti =>
      dsimp only at h
      split at h <;> split at h <;>
        first
        | (injection h with h2; injection h2; done)
        | (split at h <;>
            first
            | (injection h with h2; injection h2; done)
            | (split at h <;>
                first
                | (injection h with h2; injection h2; done)
                | (rename_i hcanc hfilt
                   cases Option.some.inj (Except.ok.inj h)
                   exact ⟨hfilt, by simpa using hcanc⟩)))

/-- Every element of a successful `static_arrivals` result satisfies any
property enjoyed by all emissions of `arrival_of_packed`. -/
lemma static_arrivals_mem (g : GState) (stop_number : PyStr) (now : Int) (mw : Nat)
    (l : List (PyStr × Arrival)) (h : static_arrivals g stop_number now mw = Except.ok l)
    (Q : PyStr × Arrival → Prop)
    (hQ : ∀ buf p, arrival_of_packed g now buf = Except.ok (Option.some p) → Q p) :
    ∀ p ∈ l, Q p := by
  unfold static_arrivals at h
  refine loopE_inv _ (fun acc => ∀ p ∈ acc, Q p) ?_ _ [] l (by simp) h
  intro b a b2 hP hstep
  unfold hour_step at hstep
  cases hst : g.stop_times stop_number a with
  | none => rw [hst] at hstep; cases hstep; exact hP
  | some rows =>
    rw [hst] at hstep
    refine loopE_inv _ (fun acc => ∀ p ∈ acc, Q p) ?_ rows b b2 hP hstep
    intro bb aa bb2 hPP hstep2
    cases har : arrival_of_packed g now aa with
    | error e => rw [har] at hstep2; cases hstep2
    | ok op =>
      rw [har] at hstep2
      cases op with
      | none => cases hstep2; exact hPP
      | some p =>
        cases hstep2
        intro q hq
        rcases List.mem_append.mp hq with hq | hq
        · exact hPP q hq
        · rcases List.mem_singleton.mp hq with rfl
          exact hQ aa q har

/-- C3 amended (the part of the claim that holds): every arrival derived from
the static schedule satisfies the future filter `scheduled_arrival > now` or
(`real_time_arrival` non-null and `> now`).  Arrivals from `LiveAdditions`
are appended without any filter — see the counterexample. -/
theorem static_arrivals_future_filter (g : GState) (stop_number : PyStr) (now : Int)
    (mw : Nat) (l : List (PyStr × Arrival))
    (h : static_arrivals g stop_number now mw = Except.ok l) :
    l.all (fun p => future_filter now p.2) = true := by
  rw [List.all_eq_true]
  intro p hp
  exact (static_arrivals_mem g stop_number now mw l h
    (fun q => future_filter now q.2 = true)
    (fun buf q hq => (arrival_of_packed_sound g now buf q hq).1)) p hp

/-- Witness for the amended C3: the single static arrival of the concrete
midnight scenario passes the filter. -/
theorem static_arrivals_future_filter_witness :
    ([(([116] : PyStr), carr4)]).all (fun p => future_filter 864300 p.2) = true :=
  static_arrivals_future_filter cg4 [115] 864300 3600 [([116], carr4)] rfl

/-- C2.  Once a cancellation for trip `T` is recorded in the store
(`live_cancelations` contains `T`; `_parse_live_data` performs exactly that
`store.set` when it processes a `TRIP_CANCELLED` update), no static arrival
of `T` is produced by any query. -/
theorem cancelled_trip_omitted (g : GState) (T stop_number : PyStr) (now : Int)
    (mw : Nat) (l : List (PyStr × Arrival))
    (hT : g.live_cancelations.contains T = true)
    (h : static_arrivals g stop_number now mw = Except.ok l) :
    T ∉ l.map Prod.fst := by
  intro hmem
  rcases List.mem_map.mp hmem with ⟨p, hp, hp1⟩
  have hQ : g.live_cancelations.contains p.1 = false :=
    static_arrivals_mem g stop_number now mw l h
      (fun q => g.live_cancelations.contains q.1 = false)
      (fun buf q hq => (arrival_of_packed_sound g now buf q hq).2) p hp
  rw [hp1, hT] at hQ
  cases hQ

/-- Witness for C2: in the concrete cancellation scenario the static result
contains only the other trip, so the cancelled trip is absent. -/
theorem cancelled_trip_omitted_witness :
    ([116] : PyStr) ∉ ([(([117] : PyStr), carr2)].map Prod.fst) :=
  cancelled_trip_omitted cg2 [116] [115] 897000 3600 [([117], carr2)] rfl rfl

/-! ## C1: the binary-search delay lookup -/

/-- On a list whose first `k` entries have `stop_sequence ≤ seq` and whose
remaining entries have `stop_sequence > seq`, filtering for
`stop_sequence ≤ seq` yields exactly the first `k` entries. -/
lemma filter_le_eq_take (U : List LiveUpdate) (seq : Int) (k : Nat) (hk : k ≤ U.length)
    (h1 : ∀ i (h : i < U.length), i < k → U[i].stop_sequence ≤ seq)
    (h2 : ∀ i (h : i < U.length), k ≤ i → seq < U[i].stop_sequence) :
    U.filter (fun u => decide (u.stop_sequence ≤ seq)) = U.take k := by
  conv_lhs => rw [← List.take_append_drop k U]
  rw [List.filter_append]
  have ht : (U.take k).filter (fun u => decide (u.stop_sequence ≤ seq)) = U.take k := by
    rw [List.filter_eq_self]
    intro a ha
    rcases List.mem_iff_getElem.mp ha with ⟨i, hi, rfl⟩
    have hik : i < k := by
      have h3 := hi; rw [List.length_take] at h3; omega
    have hiU : i < U.length := by
      have h3 := hi; rw [List.length_take] at h3; omega
    rw [List.getElem_take]
    exact decide_eq_true (h1 i hiU hik)
  have hd : (U.drop k).filter (fun u => decide (u.stop_sequence ≤ seq)) = [] := by
    rw [List.filter_eq_nil_iff]
    intro a ha
    rcases List.mem_iff_getElem.mp ha with ⟨i, hi, rfl⟩
    have hiU : k + i < U.length := by
      have h3 := hi; rw [List.length_drop] at h3; omega
    rw [List.getElem_drop]
    simp only [decide_eq_true_eq, not_le]
    exact h2 (k + i) hiU (by omega)
  rw [ht, hd, List.append_nil]

/-- The last element of a non-trivial initial segment. -/
lemma getLast_take (U : List LiveUpdate) (k : Nat) (hk0 : 0 < k) (hk : k ≤ U.length) :
    (U.take k).getLast? = U[k - 1]? := by
  rw [List.getLast?_eq_getElem?, List.length_take]
  have hmin : min k U.length = k := by omega
  rw [hmin, List.getElem?_take, if_pos (by omega)]

/-- The state of the binary-search loop on exit (`left = hi` and both index
invariants) determines the source's answer: the delay of the greatest entry
with `stop_sequence ≤ seq`, or `None` when there is none. -/
lemma delay_search_exit (U : List LiveUpdate) (seq : Int) (left hi : Nat)
    (hlh : ¬ left < hi) (hle : left ≤ hi) (hhi : hi ≤ U.length)
    (h1 : ∀ i (h : i < U.length), i < left → U[i].stop_sequence < seq)
    (h2 : ∀ i (h : i < U.length), hi ≤ i → seq < U[i].stop_sequence) :
    delay_search U seq left hi =
      (U.filter (fun u => decide (u.stop_sequence ≤ seq))).getLast?.bind
        (fun u => u.delay) := by
  rw [delay_search, dif_neg hlh]
  by_cases hl : left = 0
  · rw [if_pos hl]
    have hfil : U.filter (fun u => decide (u.stop_sequence ≤ seq)) = U.take 0 :=
      filter_le_eq_take U seq 0 (by omega) (by omega) (fun i h _ => h2 i h (by omega))
    rw [hfil]
    rfl
  · rw [if_neg hl]
    have hfil : U.filter (fun u => decide (u.stop_sequence ≤ seq)) = U.take left :=
      filter_le_eq_take U seq left (by omega)
        (fun i h hil => le_of_lt (h1 i h hil))
        (fun i h hge => h2 i h (by omega))
    have hl1 : left - 1 < U.length := by omega
    rw [hfil, getLast_take U left (by omega) (by omega),
      List.getElem?_eq_getElem hl1, List.getD_eq_getElem?_getD,
      List.getElem?_eq_getElem hl1]
    rfl

/-- Correctness of the binary-search loop under the sortedness invariant:
from any reachable loop state it returns the delay of the greatest entry at
or before `seq`. -/
lemma delay_search_spec (U : List LiveUpdate) (seq : Int)
    (hs : U.Pairwise (fun a b => a.stop_sequence < b.stop_sequence)) :
    ∀ (n left hi : Nat), hi - left ≤ n → left ≤ hi → hi ≤ U.length →
      (∀ i (h : i < U.length), i < left → U[i].stop_sequence < seq) →
      (∀ i (h : i < U.length), hi ≤ i → seq < U[i].stop_sequence) →
      delay_search U seq left hi =
        (U.filter (fun u => decide (u.stop_sequence ≤ seq))).getLast?.bind
          (fun u => u.delay) := by
  have mono : ∀ (i j : Nat) (hi2 : i < U.length) (hj : j < U.length), i < j →
      U[i].stop_sequence < U[j].stop_sequence := fun i j hi2 hj hij =>
    List.pairwise_iff_getElem.mp hs i j hi2 hj hij
  intro n
  induction n with
  | zero =>
    intro left hi hn hle hhi h1 h2
    exact delay_search_exit U seq left hi (by omega) hle hhi h1 h2
  | succ n ih =>
    intro left hi hn hle hhi h1 h2
    by_cases hcase : left < hi
    · rw [delay_search, dif_pos hcase]
      have hmidlo : left ≤ (left + hi - 1) / 2 := by omega
      have hmidhi : (left + hi - 1) / 2 < hi := by omega
      have hmidU : (left + hi - 1) / 2 < U.length := by omega
      dsimp only
      rw [List.getD_eq_getElem?_getD, List.getElem?_eq_getElem hmidU, Option.getD_some]
      by_cases hlt : U[(left + hi - 1) / 2].stop_sequence < seq
      · rw [if_pos hlt]
        refine ih ((left + hi - 1) / 2 + 1) hi (by omega) (by omega) hhi ?_ h2
        intro i h hi2
        by_cases him : i < (left + hi - 1) / 2
        · exact lt_trans (mono i ((left + hi - 1) / 2) h hmidU him) hlt
        · have hieq : i = (left + hi - 1) / 2 := by omega
          subst hieq
          exact hlt
      · rw [if_neg hlt]
        by_cases hgt : seq < U[(left + hi - 1) / 2].stop_sequence
        · rw [if_pos hgt]
          refine ih left ((left + hi - 1) / 2) (by omega) (by omega) (by omega) h1 ?_
          intro i h hmi
          by_cases him : (left + hi - 1) / 2 < i
          · exact lt_trans hgt (mono ((left + hi - 1) / 2) i hmidU h him)
          · have hieq : i = (left + hi - 1) / 2 := by omega
            subst hieq
            exact hgt
        · rw [if_neg hgt]
          have heq : U[(left + hi - 1) / 2].stop_sequence = seq := by omega
          have hfil : U.filter (fun u => decide (u.stop_sequence ≤ seq)) =
              U.take ((left + hi - 1) / 2 + 1) := by
            refine filter_le_eq_take U seq ((left + hi - 1) / 2 + 1) (by omega) ?_ ?_
            · intro i h hi2
              by_cases him : i < (left + hi - 1) / 2
              · exact le_of_lt (lt_of_lt_of_le (mono i ((left + hi - 1) / 2) h hmidU him)
                  (le_of_eq heq))
              · have hieq : i = (left + hi - 1) / 2 := by omega
                subst hieq
                exact le_of_eq heq
            · intro i h hge
              have him : (left + hi - 1) / 2 < i := by omega
              exact heq ▸ mono ((left + hi - 1) / 2) i hmidU h him
          rw [hfil, getLast_take U ((left + hi - 1) / 2 + 1) (by omega) (by omega)]
          have hidx : (left + hi - 1) / 2 + 1 - 1 < U.length := by omega
          rw [List.getElem?_eq_getElem hidx]
          simp
    · exact delay_search_exit U seq left hi hcase hle hhi h1 h2

/-- C1.  When the stored live-delays list for a trip is sorted strictly
ascending by `stop_sequence` (the data-model invariant), `_get_live_delay`
returns the `delay` field of the greatest entry whose `stop_sequence` is at
most the requested one — the last element of the `≤`-filtered list — and
`None` when no such entry exists, in particular when nothing is stored for
the trip. -/
theorem get_live_delay_greatest_le (g : GState) (trip_id : PyStr) (seq : Int)
    (hsorted : ∀ U, g.live_delays trip_id = Option.some U →
      U.Pairwise (fun a b => a.stop_sequence < b.stop_sequence)) :
    get_live_delay g trip_id seq =
      (((g.live_delays trip_id).getD []).filter
          (fun u => decide (u.stop_sequence ≤ seq))).getLast?.bind (fun u => u.delay) := by
  unfold get_live_delay
  cases hU : g.live_delays trip_id with
  | none => simp
  | some U =>
    dsimp only [Option.getD_some]
    by_cases hE : U.isEmpty
    · rw [if_pos hE]
      have hnil : U = [] := List.isEmpty_iff.mp hE
      subst hnil
      rfl
    · rw [if_neg hE]
      exact delay_search_spec U seq (hsorted U hU) U.length 0 U.length (by omega) (by omega)
        (le_refl _) (fun i h hlt => absurd hlt (by omega)) (fun i h hge => absurd h (by omega))

/-- Witness for C1: on the concrete sorted list `lu1` (sequences 1 and 5),
the lookup at sequence 7 returns the delay of the entry at sequence 5. -/
theorem get_live_delay_greatest_le_witness :
    get_live_delay cg1 [116] 7 = Option.some 20 := by
  have h := get_live_delay_greatest_le cg1 [116] 7 ?_
  · rw [h]
    rfl
  · intro U hU
    have hcg : cg1.live_delays [116] = Option.some lu1 := rfl
    rw [hcg] at hU
    have hU2 : lu1 = U := Option.some.inj hU
    rw [← hU2]
    decide

/-! ## C8: what one ingest pass does to the live state

The per-update contributions of a pass are recomputed below on a fixed
store state (`stu_delay`, `stu_addition`, and their entity- and pass-level
aggregations).  This is sound because a successful step never modifies the
fields these contributions read — the stop filter and the static tables —
which `StaticEq` makes precise. -/

/-- The store fields that `_parse_live_data` reads but never writes:
the filters, the stop table and the static join tables. -/
abbrev StaticEq (g2 g : GState) : Prop :=
  g2.stops = g.stops ∧ g2.filter_stops = g.filter_stops ∧
  g2.filter_trips = g.filter_trips ∧ g2.trips = g.trips ∧
  g2.routes = g.routes ∧ g2.agencies = g.agencies ∧ g2.services = g.services

/-- `StaticEq` is transitive. -/
lemma staticEq_trans {g3 g2 g : GState} (a : StaticEq g3 g2) (b : StaticEq g2 g) :
    StaticEq g3 g :=
  ⟨a.1.trans b.1, a.2.1.trans b.2.1, a.2.2.1.trans b.2.2.1, a.2.2.2.1.trans b.2.2.2.1,
   a.2.2.2.2.1.trans b.2.2.2.2.1, a.2.2.2.2.2.1.trans b.2.2.2.2.2.1,
   a.2.2.2.2.2.2.trans b.2.2.2.2.2.2⟩

/-- The `live_delays` entry one scheduled stop-time update contributes to
its entity's `trip_delays` buffer, assuming the step does not abort the
pass (aborting steps never store a buffer, so this case is irrelevant for a
successful pass).  The branch conditions mirror `stu_step`. -/
def stu_delay (g : GState) (ts : Nat) (tu : TripUpdateMsg) (stu : StopTimeUpdate) :
    Option LiveUpdate :=
  if stu.schedule_relationship ≠ STOP_SCHEDULED then Option.none
  else
    let stop_number := g.stops stu.stop_id
    if g.filter_stops = Option.none ∧ stop_number = Option.none then Option.none
    else if tu.schedule_relationship = TRIP_ADDED ∧ stop_number ≠ Option.none then Option.none
    else if tu.schedule_relationship = TRIP_CANCELLED then Option.none
    else if tu.schedule_relationship = TRIP_SCHEDULED then
      match get_trip_info g tu.trip_id with
      | Except.error _ => Option.none
      | Except.ok Option.none => Option.none
      | Except.ok (Option.some _) =>
        if stu.arrival_time ≠ 0 then
          Option.some { stop_sequence := stu.stop_sequence, stop_number := stop_number,
                        delay := Option.none, arrival_time := Option.some stu.arrival_time,
                        timestamp := ts }
        else if stu.arrival_delay < -604800 then Option.none
        else Option.some { stop_sequence := stu.stop_sequence, stop_number := stop_number,
                           delay := Option.some stu.arrival_delay, arrival_time := Option.none,
                           timestamp := ts }
    else Option.none

/-- The `live_additions` entry one stop-time update contributes, with the
stop number it is stored under.  The branch conditions mirror `stu_step`. -/
def stu_addition (g : GState) (ts : Nat) (tu : TripUpdateMsg) (stu : StopTimeUpdate) :
    Option (PyStr × Addition) :=
  if stu.schedule_relationship ≠ STOP_SCHEDULED then Option.none
  else
    let stop_number := g.stops stu.stop_id
    if g.filter_stops = Option.none ∧ stop_number = Option.none then Option.none
    else if tu.schedule_relationship = TRIP_ADDED ∧ stop_number ≠ Option.none then
      if stu.arrival_time ≠ 0 then
        Option.some (stop_number.getD [],
          { route_id := tu.route_id, arrival := stu.arrival_time, timestamp := ts })
      else Option.none
    else Option.none

/-- The additions one stop-time update contributes at one stop. -/
def stu_addition_at (g : GState) (ts : Nat) (tu : TripUpdateMsg) (stu : StopTimeUpdate)
    (s : PyStr) : List Addition :=
  match stu_addition g ts tu stu with
  | Option.some p => if s = p.1 then [p.2] else []
  | Option.none => []

/-- The `trip_delays` buffer one entity builds over its stop-time updates. -/
def entity_delays (g : GState) (ts : Nat) (tu : TripUpdateMsg) :
    List StopTimeUpdate → List LiveUpdate
  | [] => []
  | stu :: rest => (stu_delay g ts tu stu).toList ++ entity_delays g ts tu rest

/-- The additions one entity appends at one stop, in update order. -/
def entity_additions (g : GState) (ts : Nat) (tu : TripUpdateMsg) :
    List StopTimeUpdate → PyStr → List Addition
  | [], _ => []
  | stu :: rest, s => stu_addition_at g ts tu stu s ++ entity_additions g ts tu rest s

/-- The delay list a pass stores for trip `t`: the buffer of the last
unfiltered entity that reports `t` with a non-empty buffer, or nothing. -/
def pass_delays (g : GState) (ts : Nat) : List TripUpdateMsg → PyStr → Option (List LiveUpdate)
  | [], _ => Option.none
  | tu :: rest, t =>
    match pass_delays g ts rest t with
    | Option.some b => Option.some b
    | Option.none =>
      if filter_trips_skip g tu = false ∧ t = tu.trip_id ∧
          entity_delays g ts tu tu.stop_time_update ≠ [] then
        Option.some (entity_delays g ts tu tu.stop_time_update)
      else Option.none

/-- The additions a pass appends at one stop, in feed order. -/
def pass_additions (g : GState) (ts : Nat) : List TripUpdateMsg → PyStr → List Addition
  | [], _ => []
  | tu :: rest, s =>
    (if filter_trips_skip g tu = true then []
     else entity_additions g ts tu tu.stop_time_update s) ++ pass_additions g ts rest s

/-- `get_trip_info` reads only the static join tables. -/
lemma get_trip_info_congr (g2 g : GState) (tid : PyStr)
    (htr : g2.trips = g.trips) (hro : g2.routes = g.routes)
    (hag : g2.agencies = g.agencies) (hse : g2.services = g.services) :
    get_trip_info g2 tid = get_trip_info g tid := by
  unfold get_trip_info
  rw [htr, hro, hag, hse]

/-- `stu_delay` reads only the `StaticEq` fields. -/
lemma stu_delay_congr (g2 g : GState) (ts : Nat) (tu : TripUpdateMsg) (stu : StopTimeUpdate)
    (hs : StaticEq g2 g) : stu_delay g2 ts tu stu = stu_delay g ts tu stu := by
  obtain ⟨h1, h2, _, h4, h5, h6, h7⟩ := hs
  unfold stu_delay
  rw [h1, h2, get_trip_info_congr g2 g tu.trip_id h4 h5 h6 h7]

/-- `stu_addition` reads only the `StaticEq` fields. -/
lemma stu_addition_congr (g2 g : GState) (ts : Nat) (tu : TripUpdateMsg)
    (stu : StopTimeUpdate) (hs : StaticEq g2 g) :
    stu_addition g2 ts tu stu = stu_addition g ts tu stu := by
  obtain ⟨h1, h2, _, _, _, _, _⟩ := hs
  unfold stu_addition
  rw [h1, h2]

/-- `entity_delays` reads only the `StaticEq` fields. -/
lemma entity_delays_congr (g2 g : GState) (ts : Nat) (tu : TripUpdateMsg)
    (hs : StaticEq g2 g) :
    ∀ stus, entity_delays g2 ts tu stus = entity_delays g ts tu stus := by
  intro stus
  induction stus with
  | nil => rfl
  | cons a rest ih =>
    simp only [entity_delays, stu_delay_congr g2 g ts tu a hs, ih]

/-- `entity_additions` reads only the `StaticEq` fields. -/
lemma entity_additions_congr (g2 g : GState) (ts : Nat) (tu : TripUpdateMsg)
    (hs : StaticEq g2 g) :
    ∀ stus s, entity_additions g2 ts tu stus s = entity_additions g ts tu stus s := by
  intro stus
  induction stus with
  | nil => intro s; rfl
  | cons a rest ih =>
    intro s
    simp only [entity_additions, stu_addition_at, stu_addition_congr g2 g ts tu a hs, ih]

/-- `pass_delays` reads only the `StaticEq` fields. -/
lemma pass_delays_congr (g2 g : GState) (ts : Nat) (hs : StaticEq g2 g) :
    ∀ feed t, pass_delays g2 ts feed t = pass_delays g ts feed t := by
  intro feed
  induction feed with
  | nil => intro t; rfl
  | cons a rest ih =>
    intro t
    simp only [pass_delays, ih, entity_delays_congr g2 g ts a hs,
      show filter_trips_skip g2 a = filter_trips_skip g a by
        unfold filter_trips_skip; rw [hs.2.2.1]]

/-- `pass_additions` reads only the `StaticEq` fields. -/
lemma pass_additions_congr (g2 g : GState) (ts : Nat) (hs : StaticEq g2 g) :
    ∀ feed s, pass_additions g2 ts feed s = pass_additions g ts feed s := by
  intro feed
  induction feed with
  | nil => intro s; rfl
  | cons a rest ih =>
    intro s
    simp only [pass_additions, ih, entity_additions_congr g2 g ts a hs,
      show filter_trips_skip g2 a = filter_trips_skip g a by
        unfold filter_trips_skip; rw [hs.2.2.1]]

/-- A pass never stores an empty delay list. -/
lemma pass_delays_nonempty (g : GState) (ts : Nat) :
    ∀ feed (t : PyStr) (b : List LiveUpdate),
      pass_delays g ts feed t = Option.some b → b ≠ [] := by
  intro feed
  induction feed with
  | nil => intro t b h; cases h
  | cons a rest ih =>
    intro t b h
    simp only [pass_delays] at h
    cases hr : pass_delays g ts rest t with
    | some c =>
      rw [hr] at h
      cases h
      exact ih t b hr
    | none =>
      rw [hr] at h
      by_cases hc : filter_trips_skip g a = false ∧ t = a.trip_id ∧
          entity_delays g ts a a.stop_time_update ≠ []
      · rw [if_pos hc] at h
        cases h
        exact hc.2.2
      · rw [if_neg hc] at h
        cases h

/-- Full characterization of a successful stop-time-update step: the
`trip_delays` buffer grows exactly by the update's `stu_delay` contribution,
`live_delays`, `live_cancelations` and every `StaticEq` field are untouched,
and each stop's additions list grows exactly by the update's
`stu_addition_at` contribution. -/
lemma stu_step_ok (ts : Nat) (tu : TripUpdateMsg) (st st2 : GState × List LiveUpdate)
    (stu : StopTimeUpdate) (h : stu_step ts tu st stu = Except.ok st2) :
    st2.2 = st.2 ++ (stu_delay st.1 ts tu stu).toList ∧
    st2.1.live_delays = st.1.live_delays ∧
    st2.1.live_cancelations = st.1.live_cancelations ∧
    StaticEq st2.1 st.1 ∧
    ∀ s, (st2.1.live_additions s).getD [] =
      (st.1.live_additions s).getD [] ++ stu_addition_at st.1 ts tu stu s := by
  unfold stu_step at h
  dsimp only at h
  simp only [STOP_SCHEDULED, TRIP_ADDED, TRIP_CANCELLED, TRIP_SCHEDULED] at h
  by_cases hC1 : stu.schedule_relationship ≠ 0
  · rw [if_pos hC1] at h
    cases h
    refine ⟨?_, rfl, rfl, ⟨rfl, rfl, rfl, rfl, rfl, rfl, rfl⟩, fun s => ?_⟩
    · simp [stu_delay, STOP_SCHEDULED, hC1]
    · simp [stu_addition_at, stu_addition, STOP_SCHEDULED, hC1]
  · rw [if_neg hC1] at h
    by_cases hC2 : st.1.filter_stops = Option.none ∧ st.1.stops stu.stop_id = Option.none
    · rw [if_pos hC2] at h
      cases h
      refine ⟨?_, rfl, rfl, ⟨rfl, rfl, rfl, rfl, rfl, rfl, rfl⟩, fun s => ?_⟩
      · simp [stu_delay, STOP_SCHEDULED, hC1, hC2]
      · simp [stu_addition_at, stu_addition, STOP_SCHEDULED, hC1, hC2]
    · rw [if_neg hC2] at h
      by_cases hC3 : tu.schedule_relationship = 1 ∧ st.1.stops stu.stop_id ≠ Option.none
      · rw [if_pos hC3] at h
        by_cases hC4 : stu.arrival_time ≠ 0
        · rw [if_pos hC4] at h
          cases h
          refine ⟨?_, rfl, rfl, ⟨rfl, rfl, rfl, rfl, rfl, rfl, rfl⟩, fun s => ?_⟩
          · simp [stu_delay, STOP_SCHEDULED, TRIP_ADDED, TRIP_CANCELLED, TRIP_SCHEDULED,
              hC1, hC2, hC3]
          · dsimp only
            split_ifs with hs
            · subst hs
              simp [stu_addition_at, stu_addition, STOP_SCHEDULED, TRIP_ADDED,
                hC1, hC2, hC3, hC4]
            · simp [stu_addition_at, stu_addition, STOP_SCHEDULED, TRIP_ADDED,
                hC1, hC2, hC3, hC4, hs]
        · rw [if_neg hC4] at h
          cases h
          refine ⟨?_, rfl, rfl, ⟨rfl, rfl, rfl, rfl, rfl, rfl, rfl⟩, fun s => ?_⟩
          · simp [stu_delay, STOP_SCHEDULED, TRIP_ADDED, TRIP_CANCELLED, TRIP_SCHEDULED,
              hC1, hC2, hC3]
          · simp [stu_addition_at, stu_addition, STOP_SCHEDULED, TRIP_ADDED,
              hC1, hC2, hC3, hC4]
      · rw [if_neg hC3] at h
        by_cases hC5 : tu.schedule_relationship = 3
        · rw [if_pos hC5] at h
          cases h
        · rw [if_neg hC5] at h
          by_cases hC6 : tu.schedule_relationship = 0
          · rw [if_pos hC6] at h
            cases hti : get_trip_info st.1 tu.trip_id with
            | error e =>
              rw [hti] at h
              cases h
            | ok oti =>
              rw [hti] at h
              cases oti with
              | none =>
                dsimp only at h
                cases h
                refine ⟨?_, rfl, rfl, ⟨rfl, rfl, rfl, rfl, rfl, rfl, rfl⟩, fun s => ?_⟩
                · simp [stu_delay, STOP_SCHEDULED, TRIP_ADDED, TRIP_CANCELLED, TRIP_SCHEDULED,
                    hC1, hC2, hC3, hC5, hC6, hti]
                · simp [stu_addition_at, stu_addition, STOP_SCHEDULED, TRIP_ADDED,
                    hC1, hC2, hC3]
              | some ti =>
                dsimp only at h
                by_cases hC7 : stu.arrival_time ≠ 0
                · rw [if_pos hC7] at h
                  cases h
                  refine ⟨?_, rfl, rfl, ⟨rfl, rfl, rfl, rfl, rfl, rfl, rfl⟩, fun s => ?_⟩
                  · simp [stu_delay, STOP_SCHEDULED, TRIP_ADDED, TRIP_CANCELLED, TRIP_SCHEDULED,
                      hC1, hC2, hC3, hC5, hC6, hti, hC7]
                  · simp [stu_addition_at, stu_addition, STOP_SCHEDULED, TRIP_ADDED,
                      hC1, hC2, hC3]
                · rw [if_neg hC7] at h
                  by_cases hC8 : stu.arrival_delay < -604800
                  · rw [if_pos hC8] at h
                    cases h
                    refine ⟨?_, rfl, rfl, ⟨rfl, rfl, rfl, rfl, rfl, rfl, rfl⟩, fun s => ?_⟩
                    · simp [stu_delay, STOP_SCHEDULED, TRIP_ADDED, TRIP_CANCELLED,
                        TRIP_SCHEDULED, hC1, hC2, hC3, hC5, hC6, hti, hC7, hC8]
                    · simp [stu_addition_at, stu_addition, STOP_SCHEDULED, TRIP_ADDED,
                        hC1, hC2, hC3]
                  · rw [if_neg hC8] at h
                    cases h
                    refine ⟨?_, rfl, rfl, ⟨rfl, rfl, rfl, rfl, rfl, rfl, rfl⟩, fun s => ?_⟩
                    · simp [stu_delay, STOP_SCHEDULED, TRIP_ADDED, TRIP_CANCELLED,
                        TRIP_SCHEDULED, hC1, hC2, hC3, hC5, hC6, hti, hC7, hC8]
                    · simp [stu_addition_at, stu_addition, STOP_SCHEDULED, TRIP_ADDED,
                        hC1, hC2, hC3]
          · rw [if_neg hC6] at h
            cases h
            refine ⟨?_, rfl, rfl, ⟨rfl, rfl, rfl, rfl, rfl, rfl, rfl⟩, fun s => ?_⟩
            · simp [stu_delay, STOP_SCHEDULED, TRIP_ADDED, TRIP_CANCELLED, TRIP_SCHEDULED,
                hC1, hC2, hC3, hC5, hC6]
            · simp [stu_addition_at, stu_addition, STOP_SCHEDULED, TRIP_ADDED,
                hC1, hC2, hC3]

/-- Full characterization of a successful stop-time-update loop: the buffer
grows by exactly `entity_delays`, the additions by exactly
`entity_additions`, and nothing else changes. -/
lemma stu_loop_ok (ts : Nat) (tu : TripUpdateMsg) :
    ∀ (stus : List StopTimeUpdate) (st st2 : GState × List LiveUpdate),
      loopE (stu_step ts tu) st stus = Except.ok st2 →
      st2.2 = st.2 ++ entity_delays st.1 ts tu stus ∧
      st2.1.live_delays = st.1.live_delays ∧
      st2.1.live_cancelations = st.1.live_cancelations ∧
      StaticEq st2.1 st.1 ∧
      ∀ s, (st2.1.live_additions s).getD [] =
        (st.1.live_additions s).getD [] ++ entity_additions st.1 ts tu stus s := by
  intro stus
  induction stus with
  | nil =>
    intro st st2 h
    simp only [loopE] at h
    cases h
    exact ⟨by simp [entity_delays], rfl, rfl, ⟨rfl, rfl, rfl, rfl, rfl, rfl, rfl⟩,
      fun s => by simp [entity_additions]⟩
  | cons a t ih =>
    intro st st2 h
    simp only [loopE] at h
    cases hfa : stu_step ts tu st a with
    | error e => rw [hfa] at h; cases h
    | ok stmid =>
      rw [hfa] at h
      obtain ⟨d1, l1, c1, s1, a1⟩ := stu_step_ok ts tu st stmid a hfa
      obtain ⟨d2, l2, c2, s2, a2⟩ := ih stmid st2 h
      refine ⟨?_, l2.trans l1, c2.trans c1, staticEq_trans s2 s1, fun s => ?_⟩
      · rw [d2, d1, entity_delays_congr stmid.1 st.1 ts tu s1 t, List.append_assoc]
        rfl
      · rw [a2 s, entity_additions_congr stmid.1 st.1 ts tu s1 t s, a1 s, List.append_assoc]
        rfl

/-- Full characterization of a successful entity step: `live_delays` is
overwritten exactly at the entity's trip when it is unfiltered and its
buffer is non-empty, and then with that buffer; the additions grow exactly
by the entity's additions; nothing else changes. -/
lemma entity_step_ok (ts : Nat) (g : GState) (tu : TripUpdateMsg) (g2 : GState)
    (h : entity_step ts g tu = Except.ok g2) :
    (∀ t, g2.live_delays t =
       if filter_trips_skip g tu = false ∧ t = tu.trip_id ∧
           entity_delays g ts tu tu.stop_time_update ≠ [] then
         Option.some (entity_delays g ts tu tu.stop_time_update)
       else g.live_delays t) ∧
    g2.live_cancelations = g.live_cancelations ∧
    StaticEq g2 g ∧
    ∀ s, (g2.live_additions s).getD [] = (g.live_additions s).getD [] ++
      (if filter_trips_skip g tu = true then []
       else entity_additions g ts tu tu.stop_time_update s) := by
  unfold entity_step at h
  by_cases hskip : filter_trips_skip g tu = true
  · rw [if_pos hskip] at h
    cases h
    refine ⟨fun t => ?_, rfl, ⟨rfl, rfl, rfl, rfl, rfl, rfl, rfl⟩, fun s => ?_⟩
    · rw [if_neg (by simp [hskip])]
    · rw [if_pos hskip, List.append_nil]
  · have hskip2 : filter_trips_skip g tu = false := by simpa using hskip
    rw [if_neg hskip] at h
    cases hloop : loopE (stu_step ts tu) (g, []) tu.stop_time_update with
    | error gc => rw [hloop] at h; cases h
    | ok gd =>
      rw [hloop] at h
      obtain ⟨d1, l1, c1, s1, a1⟩ := stu_loop_ok ts tu tu.stop_time_update (g, []) gd hloop
      dsimp only at d1 l1 c1 s1 a1
      rw [List.nil_append] at d1
      cases h
      by_cases hE : gd.2.isEmpty
      · rw [if_pos hE]
        have hnil : entity_delays g ts tu tu.stop_time_update = [] := by
          rw [← d1]
          exact List.isEmpty_iff.mp hE
        refine ⟨fun t => ?_, c1, s1, fun s => ?_⟩
        · rw [if_neg (by simp [hnil])]
          exact congrFun l1 t
        · rw [if_neg (by simp [hskip2])]
          exact a1 s
      · rw [if_neg hE]
        have hne : entity_delays g ts tu tu.stop_time_update ≠ [] := by
          rw [← d1]
          simpa using hE
        refine ⟨fun t => ?_, c1, s1, fun s => ?_⟩
        · dsimp only
          by_cases ht : t = tu.trip_id
          · rw [if_pos ht, if_pos ⟨hskip2, ht, hne⟩]
            exact congrArg Option.some d1
          · rw [if_neg ht, if_neg (by simp [ht])]
            exact congrFun l1 t
        · rw [if_neg (by simp [hskip2])]
          dsimp only
          exact a1 s

/-- Full characterization of a successful pass over a list of entities, in
terms of the pass-derived `pass_delays` and `pass_additions`. -/
lemma parse_loop_ok (ts : Nat) :
    ∀ (feed : List TripUpdateMsg) (g g2 : GState),
      loopE (entity_step ts) g feed = Except.ok g2 →
      (∀ t, g2.live_delays t =
         match pass_delays g ts feed t with
         | Option.some b => Option.some b
         | Option.none => g.live_delays t) ∧
      g2.live_cancelations = g.live_cancelations ∧
      StaticEq g2 g ∧
      ∀ s, (g2.live_additions s).getD [] =
        (g.live_additions s).getD [] ++ pass_additions g ts feed s := by
  intro feed
  induction feed with
  | nil =>
    intro g g2 h
    simp only [loopE] at h
    cases h
    exact ⟨fun t => rfl, rfl, ⟨rfl, rfl, rfl, rfl, rfl, rfl, rfl⟩,
      fun s => by simp [pass_additions]⟩
  | cons a rest ih =>
    intro g g2 h
    simp only [loopE] at h
    cases hfa : entity_step ts g a with
    | error e => rw [hfa] at h; cases h
    | ok gmid =>
      rw [hfa] at h
      obtain ⟨d1, c1, s1, a1⟩ := entity_step_ok ts g a gmid hfa
      obtain ⟨d2, c2, s2, a2⟩ := ih gmid g2 h
      refine ⟨fun t => ?_, c2.trans c1, staticEq_trans s2 s1, fun s => ?_⟩
      · have hd2 := d2 t
        rw [pass_delays_congr gmid g ts s1 rest t] at hd2
        simp only [pass_delays]
        cases hrest : pass_delays g ts rest t with
        | some b =>
          rw [hrest] at hd2
          exact hd2
        | none =>
          rw [hrest] at hd2
          rw [hd2, d1 t]
          by_cases hc : filter_trips_skip g a = false ∧ t = a.trip_id ∧
              entity_delays g ts a a.stop_time_update ≠ []
          · rw [if_pos hc, if_pos hc]
          · rw [if_neg hc, if_neg hc]
      · have ha2 := a2 s
        rw [pass_additions_congr gmid g ts s1 rest s] at ha2
        rw [ha2, a1 s, List.append_assoc]
        rfl

/-- C8 amended.  A successful ingest pass overwrites live data per key, not
wholesale: a trip's stored delay list is replaced exactly when the pass
reports that trip — an unfiltered entity for it with a non-empty
`trip_delays` buffer — and then with that pass-derived buffer (the last
reporting entity wins), while every other trip's delay list persists
unchanged; the pass never stores an empty buffer; the cancellation set is
unchanged (recording a cancellation always aborts the pass, because the
source then writes to the never-initialized `self._live_data`); and each
stop's additions list grows exactly by the pass's additions for that stop,
appended in feed order to whatever was already stored. -/
theorem parse_live_data_per_key (g : GState) (ts : Nat) (feed : List TripUpdateMsg)
    (g2 : GState) (h : parse_live_data g ts feed = Except.ok g2) :
    (∀ t, g2.live_delays t =
       match pass_delays g ts feed t with
       | Option.some b => Option.some b
       | Option.none => g.live_delays t) ∧
    (∀ t b, pass_delays g ts feed t = Option.some b → b ≠ []) ∧
    g2.live_cancelations = g.live_cancelations ∧
    ∀ s, (g2.live_additions s).getD [] =
      (g.live_additions s).getD [] ++ pass_additions g ts feed s := by
  obtain ⟨d, c, _, a⟩ := parse_loop_ok ts feed g g2 h
  exact ⟨d, fun t b => pass_delays_nonempty g ts feed t b, c, a⟩

/-- Witness for the amended C8 on the concrete one-entity pass `feed8` over
`cg8`: the cancellation set is unchanged, the untouched trip `"1"` keeps its
old delay list, and the reported trip `"7"` gets exactly the pass's buffer. -/
theorem parse_live_data_per_key_witness :
    cg8r.live_cancelations = cg8.live_cancelations ∧
    cg8r.live_delays [49] = cg8.live_delays [49] ∧
    cg8r.live_delays [55] =
      Option.some [{ stop_sequence := 4, stop_number := Option.some [115],
                     delay := Option.some 120, arrival_time := Option.none,
                     timestamp := 7 }] := by
  have h := parse_live_data_per_key cg8 7 feed8 cg8r rfl
  refine ⟨h.2.2.1, ?_, ?_⟩
  · rw [h.1 [49]]
    rfl
  · rw [h.1 [55]]
    rfl

/-- C8 counterexample.  A successful pass over an empty feed (no entities)
leaves the pre-existing delay list of trip `"1"` in the store, so the
post-pass live entities are not those derived from the pass (which derives
none). -/
theorem live_state_persists_across_pass :
    parse_live_data cg8 7 [] = Except.ok cg8 ∧
    cg8.live_delays [49] ≠ Option.none := by
  exact ⟨rfl, by decide⟩
